import Mathlib

/-!
Shallow embedding of the chart-data retrieval core of `src/services/Scraper.js`
(repository Stuart98/birthday-number-ones), together with theorems checking the
natural-language specification against it.

JavaScript strings are modelled as Lean `String` (operated on through their
`List Char` data where that keeps kernel evaluation simple), JS numbers that
are used integrally as `Int` (with `Option Int` where `NaN` can arise), and
thrown exceptions as `Except Unit`.  `Date` objects are modelled by their day
number (the JS engine itself stores milliseconds since the epoch; at midnight
granularity that is a day count), with the civil-calendar conversions spelled
out below.
-/

/-- Characters treated as whitespace by the JS `trim` calls in the scraper
(the inputs of interest only ever contain plain spaces). -/
def isJsWs (c : Char) : Bool :=
  c = ' ' || c = '\t' || c = '\n' || c = '\r'

/-- JS `String.prototype.trim`: strip leading and trailing whitespace. -/
def jsTrim (l : List Char) : List Char :=
  ((l.dropWhile isJsWs).reverse.dropWhile isJsWs).reverse

/-- Helper of `jsSplit`: accumulates the current token (reversed). -/
def jsSplitAux (sep : Char) : List Char → List Char → List (List Char)
  | [], cur => [cur.reverse]
  | c :: rest, cur =>
    if c = sep then cur.reverse :: jsSplitAux sep rest []
    else jsSplitAux sep rest (c :: cur)

/-- JS `String.prototype.split` with a one-character separator:
`"".split(sep)` gives `[""]`, adjacent separators give empty tokens. -/
def jsSplit (sep : Char) (l : List Char) : List (List Char) :=
  jsSplitAux sep l []

/-- JS `Array.prototype.indexOf` on a list of strings: index or `-1`. -/
def jsIndexOf : List String → String → Int
  | [], _ => -1
  | a :: rest, x =>
    if a = x then 0
    else
      let r := jsIndexOf rest x
      if r = -1 then -1 else r + 1

/-- JS template interpolation of an out-of-bounds array element: `undefined`
is rendered as the string `"undefined"`. -/
def jsAtStr (l : List String) (i : Nat) : String :=
  (l.get? i).getD ("undefined")

/-- JS rendering of an integer (`Number` → string). -/
def jsIntToString (i : Int) : String :=
  if i < 0 then ("-") ++ Nat.repr i.natAbs else Nat.repr i.toNat

/-- The month-name table of `parseDate` (Scraper.js line 17). -/
def months : List String :=
  ["January", "February", "March", "April", "May", "June", "July",
   "August", "September", "October", "November", "December"]

/-- Embedding of `parseDate` (Scraper.js lines 15-20): splits a `D Month YYYY` string on
spaces, trims each token, and rebuilds `YYYY-M-D` where `M` is
`months.indexOf(name) + 1` (so `0` when the name is unrecognized — JS
`indexOf` returns `-1` and no error is raised). -/
def parseDate (date : String) : String :=
  let split := (jsSplit ' ' date.data).map (fun d => String.mk (jsTrim d))
  jsAtStr split 2 ++ "-" ++ jsIntToString (jsIndexOf months (jsAtStr split 1) + 1)
    ++ "-" ++ jsAtStr split 0

/-- One token of `toSentenceCase`: JS `s[0].toUpperCase() + s.substring(1).toLowerCase()`.
On an empty token `s[0]` is `undefined` and `.toUpperCase()` throws a
`TypeError`, modelled as `Except.error`. -/
def capToken : List Char → Except Unit (List Char)
  | [] => Except.error ()
  | c :: rest => Except.ok (c.toUpper :: rest.map Char.toLower)

/-- The obvious total description of sentence-casing one word (used only to
state what the non-throwing branch of `toSentenceCase` computes). -/
def capWord : List Char → List Char
  | [] => []
  | c :: rest => c.toUpper :: rest.map Char.toLower

/-- JS `Array.prototype.map` over tokens, short-circuiting at the first
thrown exception (the exception aborts the whole `map`). -/
def capTokens : List (List Char) → Except Unit (List (List Char))
  | [] => Except.ok []
  | t :: rest =>
    match capToken t with
    | Except.error e => Except.error e
    | Except.ok c =>
      match capTokens rest with
      | Except.error e => Except.error e
      | Except.ok cs => Except.ok (c :: cs)

/-- JS `Array.prototype.join(sep)` over char-list tokens. -/
def joinSpace : List (List Char) → List Char
  | [] => []
  | [t] => t
  | t :: rest => t ++ ' ' :: joinSpace rest

/-- Embedding of `toSentenceCase` (Scraper.js lines 28-34): `val.split(' ').map(...).join(' ')`
inside a `try`; any thrown error (null input, or an empty token whose first
character is `undefined`) is caught and `''` is returned.  A `null`/`undefined`
argument is modelled as `none`. -/
def toSentenceCase (val : Option String) : String :=
  match val with
  | none => ""
  | some s =>
    match capTokens (jsSplit ' ' s.data) with
    | Except.ok toks => String.mk (joinSpace toks)
    | Except.error _ => ""

/-- JS zero-padding idiom of Scraper.js lines 95-96 and 153-154: prepend the
character 0 and keep the last two characters (JS slice with argument -2). -/
def pad2 (s : String) : String :=
  String.mk ((("0" ++ s).data).drop (("0" ++ s).data.length - 2))

/-- The canonical two-digit zero-padded decimal rendering of a number
(spec wording: "zero-padded" month/day of the ISO composite). -/
def twoDigit (n : Nat) : String :=
  if n < 10 then ("0") ++ Nat.repr n else Nat.repr n

/-- JS `String.prototype.slice(a, b)` for `0 ≤ a ≤ b`. -/
def strSlice (s : String) (a b : Nat) : String :=
  String.mk ((s.data.drop a).take (b - a))

/-- Value of a list of decimal digits. -/
def digitsVal (l : List Char) : Nat :=
  l.foldl (fun a c => a * 10 + (c.toNat - 48)) 0

/-- JS numeric coercion `Number(s)` restricted to the shapes that reach the
`Date` constructor in `cacheNumberOnes` (optionally `-`-signed digit strings);
`none` models `NaN`.  `Number("")` is `0` in JS. -/
def jsNumber (s : String) : Option Int :=
  match s.data with
  | [] => some 0
  | '-' :: rest =>
    if rest.isEmpty then none
    else if rest.all Char.isDigit then some (-(digitsVal rest : Int)) else none
  | l => if l.all Char.isDigit then some ((digitsVal l : Int)) else none

/-- Days since 1970-01-01 of the civil date `(y, m, d)` with `m` 1-indexed
(standard civil-from-days arithmetic, mirroring what the JS engine stores
for a `Date` at midnight). -/
def daysFromCivil (y m d : Int) : Int :=
  let y2 := if m ≤ 2 then y - 1 else y
  let era := y2.fdiv 400
  let yoe := y2 - era * 400
  let mp := (m + 9).emod 12
  let doy := (153 * mp + 2).fdiv 5 + d - 1
  let doe := yoe * 365 + yoe.fdiv 4 - yoe.fdiv 100 + doy
  era * 146097 + doe - 719468

/-- Inverse of `daysFromCivil`: the civil `(year, month 1-12, day)` of a day
number. -/
def civilFromDays (z0 : Int) : Int × Int × Int :=
  let z := z0 + 719468
  let era := z.fdiv 146097
  let doe := z - era * 146097
  let yoe := (doe - doe.fdiv 1460 + doe.fdiv 36524 - doe.fdiv 146096).fdiv 365
  let y := yoe + era * 400
  let doy := doe - (365 * yoe + yoe.fdiv 4 - yoe.fdiv 100)
  let mp := (5 * doy + 2).fdiv 153
  let d := doy - (153 * mp + 2).fdiv 5 + 1
  let m := mp + (if mp < 10 then 3 else -9)
  (if m ≤ 2 then y + 1 else y, m, d)

/-- JS `new Date(y, m, d)` (numeric arguments): `m` is ZERO-indexed and both
`m` and `d` roll over out-of-range values; a year `0..99` means `1900+y`.
Result is the day number of the normalized date. -/
def mkDate (y m d : Int) : Int :=
  let yy := if 0 ≤ y && y ≤ 99 then y + 1900 else y
  daysFromCivil (yy + m.fdiv 12) (m.emod 12 + 1) 1 + (d - 1)

/-- JS `Date.prototype.getFullYear`. -/
def getFullYear (dn : Int) : Int := (civilFromDays dn).1

/-- JS `Date.prototype.getMonth` — ZERO-indexed month. -/
def getMonth (dn : Int) : Int := (civilFromDays dn).2.1 - 1

/-- JS `Date.prototype.getDate` — day of month. -/
def getDate (dn : Int) : Int := (civilFromDays dn).2.2

/-- The `{year, month, day}` descriptor pushed for each enumerated date in
`cacheNumberOnes` (Scraper.js lines 151-155); the numeric `year` is kept as
its interpolated string since it is only ever used inside template strings. -/
structure FetchIdent where
  year : String
  month : String
  day : String
deriving DecidableEq

/-- Body iteration of the enumeration loop: starting at day number `dn`,
push `n` consecutive dates (`n` is the exact number of loop iterations). -/
def enumDatesFuel : Nat → Int → List FetchIdent
  | 0, _ => []
  | n + 1, dn =>
    { year := jsIntToString (getFullYear dn),
      month := pad2 (jsIntToString (getMonth dn)),
      day := pad2 (jsIntToString (getDate dn)) } :: enumDatesFuel n (dn + 1)

/-- The enumeration loop of `cacheNumberOnes` (Scraper.js line 150):
`for (; d <= now; d.setDate(d.getDate() + 1))`, pushing the descriptor built
from `d.getFullYear()`, padded `d.getMonth()`, and padded `d.getDate()`.
The loop condition `d <= now` holds for exactly `(nowDn + 1 - dn).toNat`
iterations, which is the structural fuel used here.  Note the month pushed
is `getMonth()`, which is zero-indexed. -/
def enumDatesLoop (dn nowDn : Int) : List FetchIdent :=
  enumDatesFuel ((nowDn + 1 - dn).toNat) dn

/-- Date enumeration of `cacheNumberOnes` (Scraper.js lines 144-156):
`new Date(date.slice(0, 4), date.slice(4, 6), date.slice(6, 8))` followed by
the day-increment loop.  If any slice is not numeric the constructed `Date`
is Invalid (`NaN` time value); `d <= now` is then false and the loop body
never runs, so no dates are produced. -/
def enumDates (dateStr : String) (nowDn : Int) : List FetchIdent :=
  match jsNumber (strSlice dateStr 0 4), jsNumber (strSlice dateStr 4 6),
        jsNumber (strSlice dateStr 6 8) with
  | some y, some m, some d => enumDatesLoop (mkDate y m d) nowDn
  | _, _, _ => []

/-- The canonical chart entry shape returned by `getNumberOneRemote`
(Scraper.js lines 61-71). -/
structure ChartEntry where
  date : String
  actualChartStartDate : String
  actualChartEndDate : String
  track : String
  artist : String
  cover : Option String
  year : String
  month : String
  day : String
deriving DecidableEq

/-- The fields that the cheerio selectors of `getNumberOneRemote`
(Scraper.js lines 52-59) extract from the fetched page: the two trimmed
halves of the `.article-date` text, the track title, the artist name and the
optional cover `src`.  The HTML parsing itself is opaque I/O and is
abstracted to these extracted values. -/
structure RemotePage where
  chartStartDate : String
  chartEndDate : String
  track : String
  artist : String
  cover : Option String
deriving DecidableEq

/-- Embedding of `getNumberOneRemote` (Scraper.js lines 45-72) after the HTTP GET
and selector extraction: assembles the returned entry, with the `date` field
set to the interpolated year-month-day composite, the chart-week bounds put
through `parseDate`, and track/artist put through `toSentenceCase`. -/
def getNumberOneRemote (page : RemotePage) (year month day : String) : ChartEntry :=
  { date := year ++ "-" ++ month ++ "-" ++ day
    actualChartStartDate := parseDate page.chartStartDate
    actualChartEndDate := parseDate page.chartEndDate
    track := toSentenceCase (some page.track)
    artist := toSentenceCase (some page.artist)
    cover := page.cover
    year := year
    month := month
    day := day }

/-- The in-memory cache store: the parsed `./data/number-ones.json` object,
a mapping from `YYYY-MM-DD` keys to entries. -/
def Store : Type := String → Option ChartEntry

/-- Embedding of `getNumberOneLocal` (Scraper.js lines 82-84): a point lookup
in `numberOnesData` keyed by the interpolated year-month-day composite. -/
def getNumberOneLocal (store : Store) (year month day : String) : Option ChartEntry :=
  store (year ++ "-" ++ month ++ "-" ++ day)

/-- Outcome of one `getNumberOne` call: the returned entry, the cache store
afterwards (threaded explicitly to make mutation visible), and how many
remote fetches the call performed. -/
structure LookupOutcome where
  entry : ChartEntry
  store : Store
  remoteFetches : Nat

/-- Embedding of `getNumberOne` (Scraper.js lines 94-105): zero-pads month and day, tries
the local store, and only on a miss (`if (!data)`) performs the remote
fetch.  The store is returned unchanged on both paths — the function body
contains no write to `numberOnesData` or to the file. -/
def getNumberOne (store : Store) (page : RemotePage) (year month day : String) :
    LookupOutcome :=
  let m := pad2 month
  let d := pad2 day
  match getNumberOneLocal store year m d with
  | some data => { entry := data, store := store, remoteFetches := 0 }
  | none => { entry := getNumberOneRemote page year m d, store := store, remoteFetches := 1 }

/-- Body iteration of the year loop: push `n` consecutive years starting at
`y` (`n` is the exact number of loop iterations). -/
def yearsFuel : Nat → Int → List Int
  | 0, _ => []
  | n + 1, y => y :: yearsFuel n (y + 1)

/-- The `while (year <= currentYear)` loop of `getYearlyNumberOnes`
(Scraper.js lines 129-133): the ascending list of years.  The loop condition
`year <= currentYear` holds for exactly `(cur + 1 - y).toNat` iterations,
which is the structural fuel used here. -/
def yearsUpTo (y cur : Int) : List Int :=
  yearsFuel ((cur + 1 - y).toNat) y

/-- The slot-filling of `Promise.all`: each task settles at some point of the
completion schedule and its value is stored at the task's own index;
`runSched tasks sched j` is slot `j` after the schedule `sched` (a list of
task indices in completion order) has run. -/
def runSched (tasks : List ChartEntry) (sched : List Nat) : Nat → Option ChartEntry :=
  sched.foldl (fun acc i => fun j => if j = i then tasks.get? i else acc j)
    (fun _ => none)

/-- Model of `Promise.all(tasks)`: after all tasks have completed (in whatever order
`sched` says), the slots are read back in index order. -/
def promiseAll (tasks : List ChartEntry) (sched : List Nat) : List (Option ChartEntry) :=
  (List.range tasks.length).map (runSched tasks sched)

/-- Embedding of `getYearlyNumberOnes` (Scraper.js lines 113-137): after `parseInt` the
inputs are integers; `now` enters through `getFullYear()` and (zero-indexed)
`getMonth()`, injected here as `nowYear`/`nowMonth0`.  The guard is
`month > now.getMonth()` — the 1-indexed query month against the 0-indexed
current month.  The per-year lookup (`getNumberOne`) is abstracted as
`fetch`; `sched` is the completion order of the fan-out. -/
def getYearlyNumberOnes (fetch : Int → Int → Int → ChartEntry)
    (year month day : Int) (nowYear nowMonth0 : Int) (sched : List Nat) :
    List (Option ChartEntry) :=
  let currentYear := if month > nowMonth0 then nowYear - 1 else nowYear
  promiseAll ((yearsUpTo year currentYear).map (fun y => fetch y month day)) sched

/-- The `PromisePool` processing of `cacheNumberOnes` (Scraper.js lines
160-163) observed at the program level: each enumerated date is processed
exactly once (second component counts fetch invocations); a rejected fetch
contributes nothing to `results` and the pool moves on. -/
def poolRun (fetch : FetchIdent → Option ChartEntry) :
    List FetchIdent → List ChartEntry × Nat
  | [] => ([], 0)
  | d :: rest =>
    let r := poolRun fetch rest
    match fetch d with
    | some e => (e :: r.1, r.2 + 1)
    | none => (r.1, r.2 + 1)

/-- The save-object construction of `cacheNumberOnes` (Scraper.js lines
166-169): `saveData[r.date] = r` for each result, so a key maps to the LAST
result carrying that date. -/
def saveStore (results : List ChartEntry) : Store :=
  fun k => results.reverse.find? (fun r => r.date == k)

/-- Embedding of `cacheNumberOnes` (Scraper.js lines 144-175): enumerate the dates, fetch
them through the pool, build `saveData` from the results alone, and
`writeFileSync` it as the new blob.  `prior` is the content of
`./data/number-ones.json` before the run; the source never reads it into
`saveData`, so the written store is built from `results` only.  Returns
(returned results, persisted store). -/
def cacheNumberOnes (prior : Store) (fetch : FetchIdent → Option ChartEntry)
    (dateStr : String) (nowDn : Int) : List ChartEntry × Store :=
  let dates := enumDates dateStr nowDn
  let results := (poolRun fetch dates).1
  (results, saveStore results)

/-- Modelled from the spec: the worker-pool discipline of the external
`@supercharge/promise-pool` dependency (`withConcurrency(100)` in Scraper.js
lines 160-163), whose implementation is not under `src/`.  A state holds the
dates not yet started, the fetches in flight, and the finished ones. -/
structure PoolState (α : Type) where
  pending : List α
  inFlight : List α
  done : List α

/-- Modelled from the spec: one scheduler step of the pool — a worker may
start the next pending date only while strictly fewer than `cap` fetches are
in flight, and any in-flight fetch may finish. -/
inductive poolStep (cap : Nat) : PoolState α → PoolState α → Prop
  | start (d : α) (rest inF done : List α) (h : inF.length < cap) :
      poolStep cap ⟨d :: rest, inF, done⟩ ⟨rest, d :: inF, done⟩
  | finish (pend pre post done : List α) (d : α) :
      poolStep cap ⟨pend, pre ++ d :: post, done⟩ ⟨pend, pre ++ post, d :: done⟩

/-- Modelled from the spec: the states a backfill pool run over `dates` can
reach, starting from everything pending and nothing in flight. -/
def poolReachable (cap : Nat) (dates : List α) (s : PoolState α) : Prop :=
  Relation.ReflTransGen (poolStep cap) ⟨dates, [], []⟩ s

/-- The store invariant of the spec: every stored entry's `date` field equals
its key. -/
def storeInv (store : Store) : Prop :=
  ∀ k e, store k = some e → e.date = k

/-- Sample entry, store and page used by concrete witnesses. -/
def sampleEntry : ChartEntry :=
  { date := "2001-08-07", actualChartStartDate := "2001-8-5",
    actualChartEndDate := "2001-8-11", track := "Song", artist := "Band",
    cover := none, year := "2001", month := "08", day := "07" }

def sampleStore : Store := saveStore [sampleEntry]

def samplePage : RemotePage :=
  { chartStartDate := "5 August 2001", chartEndDate := "11 August 2001",
    track := "SONG", artist := "BAND", cover := none }

/-- A pre-existing store entry (for a key no backfill run below re-fetches). -/
def priorEntry : ChartEntry :=
  { date := "1999-12-25", actualChartStartDate := "1999-12-19",
    actualChartEndDate := "1999-12-25", track := "Old Song", artist := "Old Band",
    cover := none, year := "1999", month := "12", day := "25" }

def priorStore : Store := saveStore [priorEntry]

/-- A fetch that always succeeds, echoing the requested identifier. -/
def okFetch : FetchIdent → Option ChartEntry := fun d =>
  some { date := d.year ++ "-" ++ d.month ++ "-" ++ d.day,
         actualChartStartDate := "", actualChartEndDate := "",
         track := "", artist := "", cover := none,
         year := d.year, month := d.month, day := d.day }

/-- A fetch that fails (FetchError) exactly on the middle day of the
2020-01-03..2020-01-05 run. -/
def failMidFetch : FetchIdent → Option ChartEntry := fun d =>
  if d = ⟨"2020", "01", "04"⟩ then none else okFetch d

/-- The entry `okFetch` returns for the third enumerated day. -/
def entry0105 : ChartEntry :=
  { date := "2020-01-05", actualChartStartDate := "", actualChartEndDate := "",
    track := "", artist := "", cover := none,
    year := "2020", month := "01", day := "05" }

/-- A concrete lookup function for the C3 witness. -/
def cFetch : Int → Int → Int → ChartEntry := fun y m d =>
  { date := jsIntToString y ++ "-" ++ jsIntToString m ++ "-" ++ jsIntToString d,
    actualChartStartDate := "", actualChartEndDate := "",
    track := "", artist := "", cover := none,
    year := jsIntToString y, month := jsIntToString m, day := jsIntToString d }

def identA : FetchIdent := ⟨"2020", "01", "03"⟩

def identB : FetchIdent := ⟨"2020", "01", "04"⟩

/-! ### Supporting lemmas -/

lemma capTokens_ok (toks : List (List Char)) (h : ∀ t ∈ toks, t ≠ []) :
    capTokens toks = Except.ok (toks.map capWord) := by
  induction toks with
  | nil => rfl
  | cons t rest ih =>
    obtain ⟨c, r, rfl⟩ : ∃ c r, t = c :: r := by
      cases t with
      | nil => exact absurd rfl (h _ (List.mem_cons_self _ _))
      | cons c r => exact ⟨c, r, rfl⟩
    rw [capTokens, capToken, ih (fun x hx => h x (List.mem_cons_of_mem _ hx))]
    rfl

lemma capTokens_err (toks : List (List Char)) (h : [] ∈ toks) :
    capTokens toks = Except.error () := by
  induction toks with
  | nil => simp at h
  | cons t rest ih =>
    rcases List.mem_cons.mp h with h1 | h2
    · rw [← h1, capTokens]; rfl
    · cases t with
      | nil => rw [capTokens]; rfl
      | cons c r => rw [capTokens, capToken, ih h2]

lemma saveStore_inv (results : List ChartEntry) (k : String) (e : ChartEntry)
    (h : saveStore results k = some e) : e.date = k := by
  unfold saveStore at h
  have hp := List.find?_some h
  exact eq_of_beq hp

lemma jsSplitAux_append (sep : Char) :
    ∀ (xs cur rest : List Char), sep ∉ xs →
      jsSplitAux sep (xs ++ sep :: rest) cur = (cur.reverse ++ xs) :: jsSplitAux sep rest []
  | [], cur, rest, _ => by simp [jsSplitAux]
  | c :: xs, cur, rest, h => by
    have hc : ¬(c = sep) := by
      intro e; subst e; exact h (List.mem_cons_self _ _)
    have ih := jsSplitAux_append sep xs (c :: cur) rest
      (fun hx => h (List.mem_cons_of_mem _ hx))
    simp only [List.cons_append, jsSplitAux, if_neg hc]
    exact ih.trans (by simp)

lemma jsSplitAux_no_sep (sep : Char) :
    ∀ (xs cur : List Char), sep ∉ xs → jsSplitAux sep xs cur = [cur.reverse ++ xs]
  | [], cur, _ => by simp [jsSplitAux]
  | c :: xs, cur, h => by
    have hc : ¬(c = sep) := by
      intro e; subst e; exact h (List.mem_cons_self _ _)
    have ih := jsSplitAux_no_sep sep xs (c :: cur)
      (fun hx => h (List.mem_cons_of_mem _ hx))
    simp only [jsSplitAux, if_neg hc]
    exact ih.trans (by simp)

lemma jsSplit_three (d m y : List Char) (hd : ' ' ∉ d) (hm : ' ' ∉ m) (hy : ' ' ∉ y) :
    jsSplit ' ' (d ++ ' ' :: (m ++ ' ' :: y)) = [d, m, y] := by
  unfold jsSplit
  rw [jsSplitAux_append ' ' d [] (m ++ ' ' :: y) hd,
      jsSplitAux_append ' ' m [] y hm,
      jsSplitAux_no_sep ' ' y [] hy]
  simp

lemma dropWhile_ws_free (l : List Char) (h : ∀ c ∈ l, isJsWs c = false) :
    l.dropWhile isJsWs = l := by
  cases l with
  | nil => rfl
  | cons c t =>
    have hc := h c (List.mem_cons_self _ _)
    simp [List.dropWhile, hc]

lemma jsTrim_id (l : List Char) (h : ∀ c ∈ l, isJsWs c = false) : jsTrim l = l := by
  unfold jsTrim
  rw [dropWhile_ws_free l h,
      dropWhile_ws_free l.reverse (fun c hc => h c (List.mem_reverse.mp hc)),
      List.reverse_reverse]

lemma jsIndexOf_not_mem : ∀ (l : List String) (x : String), x ∉ l → jsIndexOf l x = -1
  | [], _, _ => rfl
  | a :: rest, x, h => by
    have ha : ¬(a = x) := fun e => h (List.mem_cons.mpr (Or.inl e.symm))
    have ih := jsIndexOf_not_mem rest x (fun hx => h (List.mem_cons_of_mem _ hx))
    simp [jsIndexOf, if_neg ha, ih]

/-! ### Claim C4 -/

/-- Claim C4, counterexample: on the well-formed string
`"1 Smarch 2020"` whose month name is not recognized, `parseDate` does NOT
fail: it silently returns the value `"2020-0-1"` (JS `indexOf` gives `-1`,
so the month slot becomes `0`), so no ParseError is surfaced. -/
theorem parseDate_unknown_month_cex : parseDate ("1 Smarch 2020") = "2020-0-1" := by decide

/-- Claim C4 (amended): `parseDate` applied to a `D Month YYYY` string whose
month name is not one of the twelve recognized English month names does not
fail; it silently returns the composite `YYYY-0-D` with `0` in the month
slot (it is recovered into a result value, never surfaced as an error). -/
theorem parseDate_unknown_month (d m y : String)
    (hd : ∀ c ∈ d.data, isJsWs c = false)
    (hm : ∀ c ∈ m.data, isJsWs c = false)
    (hy : ∀ c ∈ y.data, isJsWs c = false)
    (hmem : m ∉ months) :
    parseDate (d ++ " " ++ m ++ " " ++ y) = y ++ "-0-" ++ d := by
  have hsp : ∀ (s : String), (∀ c ∈ s.data, isJsWs c = false) → ' ' ∉ s.data :=
    fun s hs hc => absurd (hs ' ' hc) (by decide)
  have hdata : (d ++ " " ++ m ++ " " ++ y).data =
      d.data ++ ' ' :: (m.data ++ ' ' :: y.data) := by
    simp [String.data_append]
  have hsplit : jsSplit ' ' (d ++ " " ++ m ++ " " ++ y).data = [d.data, m.data, y.data] := by
    rw [hdata]
    exact jsSplit_three _ _ _ (hsp d hd) (hsp m hm) (hsp y hy)
  unfold parseDate
  rw [hsplit]
  simp only [List.map]
  rw [jsTrim_id _ hd, jsTrim_id _ hm, jsTrim_id _ hy]
  have hmk : ∀ s : String, String.mk s.data = s := fun _ => rfl
  rw [hmk d, hmk m, hmk y]
  simp only [jsAtStr, List.get?]
  rw [Option.getD_some, Option.getD_some, Option.getD_some]
  rw [jsIndexOf_not_mem months m hmem]
  apply String.ext
  have h0 : (jsIntToString 0).data = ['0'] := by decide
  simp [String.data_append, h0]

/-- Claim C4 (amended), witness at `"1 Smarch 2020"`. -/
theorem parseDate_unknown_month_w :
    parseDate ("1" ++ " " ++ "Smarch" ++ " " ++ "2020") = "2020" ++ "-0-" ++ "1" :=
  parseDate_unknown_month ("1") "Smarch" "2020" (by decide) (by decide) (by decide) (by decide)

/-! ### Claim C6 -/

/-- Claim C6: `toSentenceCase` never throws.  On a well-formed input whose
space-separated tokens are all non-empty it returns each word with its first
character upper-cased and the remainder lower-cased, rejoined with single
spaces; on a `null` input, the empty string, or any input containing a
zero-length token (e.g. a double space) the thrown error is caught and the
empty string is returned instead.  Includes the concrete spec examples. -/
theorem toSentenceCase_total :
    (∀ s : String, (∀ t ∈ jsSplit ' ' s.data, t ≠ []) →
        toSentenceCase (some s) = String.mk (joinSpace ((jsSplit ' ' s.data).map capWord))) ∧
    toSentenceCase none = "" ∧
    toSentenceCase (some ("")) = "" ∧
    (∀ s : String, [] ∈ jsSplit ' ' s.data → toSentenceCase (some s) = "") ∧
    toSentenceCase (some ("STUART ASHWORTH")) = "Stuart Ashworth" ∧
    toSentenceCase (some ("A  B")) = "" := by
  refine ⟨?_, rfl, by decide, ?_, by decide, by decide⟩
  · intro s h
    show (match capTokens (jsSplit ' ' s.data) with
      | Except.ok toks => String.mk (joinSpace toks)
      | Except.error _ => "") = String.mk (joinSpace ((jsSplit ' ' s.data).map capWord))
    rw [capTokens_ok _ h]
  · intro s h
    show (match capTokens (jsSplit ' ' s.data) with
      | Except.ok toks => String.mk (joinSpace toks)
      | Except.error _ => "") = ""
    rw [capTokens_err _ h]

/-- Claim C6, witness: the all-tokens-non-empty branch applied at a concrete
input. -/
theorem toSentenceCase_total_w :
    toSentenceCase (some ("HELLO big wORLD")) = "Hello Big World" := by
  have h := toSentenceCase_total.1 ("HELLO big wORLD") (by decide)
  rw [h]
  decide

/-! ### Claim C2 -/

/-- Claim C2: refuted by the code — the backfill date enumeration is broken.
First conjunct: on the documented input format `YYYY-MM-DD` (doc comment of
`cacheNumberOnes`, Scraper.js line 142), `date.slice(6, 8)` is `"1-"`, whose
numeric coercion is `NaN`, so the constructed `Date` is Invalid, `d <= now`
is false, and ZERO dates are enumerated (and hence zero fetches issued)
instead of one fetch per day of 2020-01-03..2020-01-05.  Second conjunct: on
the undashed `YYYYMMDD` reading, the constructor treats the 1-indexed input
month as JS 0-indexed (shifting the range one month late) while each fetch
uses the 0-indexed `getMonth()` as its month field, so a backfill starting
at 2020-02-27 with "today" = 2020-04-01 issues fetches for the impossible
dates `2020-02-30` and `2020-02-31` and is not the claimed consecutive
calendar enumeration (which would contain 35 dates, not 6). -/
theorem cacheNumberOnes_enum_bug :
    enumDates ("2020-01-03") (mkDate 2020 0 5) = [] ∧
    enumDates ("20200227") (mkDate 2020 3 1) =
      [⟨"2020", "02", "27"⟩, ⟨"2020", "02", "28"⟩, ⟨"2020", "02", "29"⟩,
       ⟨"2020", "02", "30"⟩, ⟨"2020", "02", "31"⟩, ⟨"2020", "03", "01"⟩] := by
  exact ⟨by decide, by decide⟩

/-! ### Claims C5 and C7 -/

lemma pad2_repr_bounded : ∀ n : Nat, n < 32 →
    pad2 (Nat.repr n) = twoDigit n ∧ pad2 ("0" ++ Nat.repr n) = twoDigit n := by decide

/-- Claim C5: for valid inputs — the month `m ≤ 12` and day `d ≤ 31` given
as decimal strings either unpadded or zero-padded — `getNumberOne` returns
an entry whose `date` field is the zero-padded ISO composite
`year-MM-DD`, on the cache-hit path (using the store invariant) as well as
on the remote-fetch path. -/
theorem getNumberOne_date_iso (store : Store) (page : RemotePage) (year : String)
    (m d : Nat) (ms ds : String) (hinv : storeInv store)
    (hm : ms = Nat.repr m ∨ ms = "0" ++ Nat.repr m) (hm2 : m ≤ 12)
    (hd : ds = Nat.repr d ∨ ds = "0" ++ Nat.repr d) (hd2 : d ≤ 31) :
    (getNumberOne store page year ms ds).entry.date =
      year ++ "-" ++ twoDigit m ++ "-" ++ twoDigit d := by
  have hpm : pad2 ms = twoDigit m := by
    rcases hm with rfl | rfl
    · exact (pad2_repr_bounded m (by omega)).1
    · exact (pad2_repr_bounded m (by omega)).2
  have hpd : pad2 ds = twoDigit d := by
    rcases hd with rfl | rfl
    · exact (pad2_repr_bounded d (by omega)).1
    · exact (pad2_repr_bounded d (by omega)).2
  unfold getNumberOne
  cases hlook : getNumberOneLocal store year (pad2 ms) (pad2 ds) with
  | some data =>
    simp only [hlook]
    unfold getNumberOneLocal at hlook
    rw [hinv _ _ hlook, hpm, hpd]
  | none =>
    simp only [hlook]
    unfold getNumberOneRemote
    rw [hpm, hpd]

/-- Claim C5, witness: a cache hit on `sampleStore` with unpadded inputs. -/
theorem getNumberOne_date_iso_w :
    (getNumberOne sampleStore samplePage ("2001") "8" "7").entry.date = "2001-08-07" := by
  have h := getNumberOne_date_iso sampleStore samplePage ("2001") 8 7 ("8") "7"
    (fun k e he => saveStore_inv _ k e he)
    (Or.inl (by decide)) (by omega) (Or.inl (by decide)) (by omega)
  rw [h]
  decide

/-- Claim C7: `getNumberOne` never mutates the cache store (the store after
the call is the store before it, on either path), and when the composite key
is present in the store the call performs zero remote fetches — hence a
repeated call for a cached key also performs zero remote fetches. -/
theorem getNumberOne_no_write (store : Store) (page : RemotePage)
    (year month day : String) :
    (getNumberOne store page year month day).store = store ∧
    (∀ e, store (year ++ "-" ++ pad2 month ++ "-" ++ pad2 day) = some e →
      (getNumberOne store page year month day).remoteFetches = 0 ∧
      (getNumberOne (getNumberOne store page year month day).store page
          year month day).remoteFetches = 0) := by
  have hframe : ∀ st : Store, (getNumberOne st page year month day).store = st := by
    intro st
    unfold getNumberOne
    cases hlook : getNumberOneLocal st year (pad2 month) (pad2 day) <;> simp [hlook]
  refine ⟨hframe store, fun e he => ?_⟩
  have hhit : (getNumberOne store page year month day).remoteFetches = 0 := by
    unfold getNumberOne
    have hlook : getNumberOneLocal store year (pad2 month) (pad2 day) = some e := he
    simp [hlook]
  exact ⟨hhit, by rw [hframe store]; exact hhit⟩

/-- Claim C7, witness: a cached key fetched twice performs zero remote
fetches both times. -/
theorem getNumberOne_no_write_w :
    (getNumberOne sampleStore samplePage ("2001") "08" "07").remoteFetches = 0 ∧
    (getNumberOne (getNumberOne sampleStore samplePage ("2001") "08" "07").store
        samplePage ("2001") "08" "07").remoteFetches = 0 := by
  exact (getNumberOne_no_write sampleStore samplePage ("2001") "08" "07").2
    sampleEntry (by decide)

/-! ### Claims C1, C8, C9 -/

/-- Claim C1, counterexample: a backfill run does NOT merge with the
pre-existing store.  With a pre-existing store holding key `1999-12-25`
(not re-fetched by the run over 2020-01-03..2020-01-05, all fetches
succeeding), the persisted store after the run no longer contains that key:
`writeFileSync` writes `saveData`, which is built from this run's results
alone (Scraper.js lines 166-172). -/
theorem cacheNumberOnes_not_merge_cex :
    priorStore ("1999-12-25") = some priorEntry ∧
    (cacheNumberOnes priorStore okFetch ("20200103") (mkDate 2020 1 5)).2
      ("1999-12-25") = none := by
  exact ⟨by decide, by decide⟩

/-- Claim C1 (amended): the persisted store after a backfill run is a
wholesale replacement, not a merge — it is entirely determined by the run's
own successful results (independent of whatever pre-existed in the blob),
and its keys are exactly the `date` fields of the returned entries; every
pre-existing key not re-fetched in the run is dropped. -/
theorem cacheNumberOnes_store_from_results (prior₁ prior₂ : Store)
    (fetch : FetchIdent → Option ChartEntry) (dateStr : String) (nowDn : Int) :
    (cacheNumberOnes prior₁ fetch dateStr nowDn).2 =
      (cacheNumberOnes prior₂ fetch dateStr nowDn).2 ∧
    ∀ k, ((cacheNumberOnes prior₁ fetch dateStr nowDn).2 k).isSome ↔
      k ∈ (cacheNumberOnes prior₁ fetch dateStr nowDn).1.map (fun r => r.date) := by
  refine ⟨rfl, fun k => ?_⟩
  show (saveStore ((poolRun fetch (enumDates dateStr nowDn)).1) k).isSome ↔ _
  unfold saveStore
  rw [List.find?_isSome]
  constructor
  · rintro ⟨x, hx, hbeq⟩
    exact List.mem_map.mpr ⟨x, List.mem_reverse.mp hx, eq_of_beq hbeq⟩
  · intro hk
    obtain ⟨x, hx, hfx⟩ := List.mem_map.mp hk
    exact ⟨x, List.mem_reverse.mpr hx, beq_iff_eq.mpr hfx⟩

lemma poolRun_count (fetch : FetchIdent → Option ChartEntry) :
    ∀ dates, (poolRun fetch dates).2 = dates.length
  | [] => rfl
  | d :: rest => by
    have ih := poolRun_count fetch rest
    cases hf : fetch d <;> simp [poolRun, hf, ih]

lemma poolRun_mem_of_ok (fetch : FetchIdent → Option ChartEntry) :
    ∀ dates d e, d ∈ dates → fetch d = some e → e ∈ (poolRun fetch dates).1
  | [], _, _, h, _ => absurd h (List.not_mem_nil _)
  | d0 :: rest, d, e, h, hf => by
    rcases List.mem_cons.mp h with rfl | h2
    · simp [poolRun, hf]
    · have ih := poolRun_mem_of_ok fetch rest d e h2 hf
      cases hf0 : fetch d0 <;> simp [poolRun, hf0, ih]

lemma poolRun_sound (fetch : FetchIdent → Option ChartEntry) :
    ∀ dates e, e ∈ (poolRun fetch dates).1 → ∃ d ∈ dates, fetch d = some e
  | [], e, h => absurd h (by simp [poolRun])
  | d0 :: rest, e, h => by
    cases hf0 : fetch d0 with
    | some a =>
      simp only [poolRun, hf0] at h
      rcases List.mem_cons.mp h with rfl | h2
      · exact ⟨d0, List.mem_cons_self _ _, hf0⟩
      · obtain ⟨d, hd, hfd⟩ := poolRun_sound fetch rest e h2
        exact ⟨d, List.mem_cons_of_mem _ hd, hfd⟩
    | none =>
      simp only [poolRun, hf0] at h
      obtain ⟨d, hd, hfd⟩ := poolRun_sound fetch rest e h
      exact ⟨d, List.mem_cons_of_mem _ hd, hfd⟩

/-- Claim C8: a failed fetch does not abort the batch and is not retried.
For every backfill run: (1) exactly one fetch is issued per enumerated date,
even when some fail (no abort, no retry); (2) every date whose fetch
succeeds has its entry in the returned sequence and under its `date` key in
the persisted store; (3) the returned sequence contains nothing else — in
particular nothing for the failed dates, which are simply omitted. -/
theorem cacheNumberOnes_failure_isolation (prior : Store)
    (fetch : FetchIdent → Option ChartEntry) (dateStr : String) (nowDn : Int) :
    (poolRun fetch (enumDates dateStr nowDn)).2 = (enumDates dateStr nowDn).length ∧
    (∀ d ∈ enumDates dateStr nowDn, ∀ e, fetch d = some e →
      e ∈ (cacheNumberOnes prior fetch dateStr nowDn).1 ∧
      ((cacheNumberOnes prior fetch dateStr nowDn).2 e.date).isSome) ∧
    (∀ e ∈ (cacheNumberOnes prior fetch dateStr nowDn).1,
      ∃ d ∈ enumDates dateStr nowDn, fetch d = some e) := by
  refine ⟨poolRun_count fetch _,
    fun d hd e hf => ⟨poolRun_mem_of_ok fetch _ d e hd hf, ?_⟩,
    fun e he => poolRun_sound fetch _ e he⟩
  have hmem := poolRun_mem_of_ok fetch _ d e hd hf
  show (saveStore ((poolRun fetch (enumDates dateStr nowDn)).1) e.date).isSome
  unfold saveStore
  rw [List.find?_isSome]
  exact ⟨e, List.mem_reverse.mpr hmem, by simp⟩

/-- Claim C8, witness: the spec's 3-day scenario — the middle day's fetch
fails; the result sequence has length 2 and still contains the third day's
entry. -/
theorem cacheNumberOnes_failure_isolation_w :
    entry0105 ∈ (cacheNumberOnes priorStore failMidFetch ("20200103") (mkDate 2020 1 5)).1 ∧
    (cacheNumberOnes priorStore failMidFetch ("20200103") (mkDate 2020 1 5)).1.length = 2 := by
  refine ⟨((cacheNumberOnes_failure_isolation priorStore failMidFetch ("20200103")
    (mkDate 2020 1 5)).2.1 ⟨"2020", "01", "05"⟩ (by decide) entry0105 (by decide)).1,
    by decide⟩

/-- Claim C9: the store invariant after backfill, the only writer — every
key present in the persisted store maps to an entry whose `date` field
equals that key (`saveData[r.date] = r` keys the object by the entry's own
date). -/
theorem cacheNumberOnes_inv (prior : Store) (fetch : FetchIdent → Option ChartEntry)
    (dateStr : String) (nowDn : Int) (k : String) (e : ChartEntry)
    (h : (cacheNumberOnes prior fetch dateStr nowDn).2 k = some e) : e.date = k :=
  saveStore_inv _ k e h

/-- Claim C9, witness: the entry persisted under key `2020-01-05` indeed has
that `date` field. -/
theorem cacheNumberOnes_inv_w : entry0105.date = "2020-01-05" :=
  cacheNumberOnes_inv priorStore okFetch ("20200103") (mkDate 2020 1 5)
    "2020-01-05" entry0105 (by decide)

/-! ### Claim C3 -/

lemma yearsFuel_eq (n : Nat) : ∀ y : Int,
    yearsFuel n y = (List.range n).map (fun i : Nat => y + (i : Int)) := by
  induction n with
  | zero => intro y; rfl
  | succ n ih =>
    intro y
    rw [yearsFuel, ih (y + 1), List.range_succ_eq_map, List.map_cons, List.map_map]
    congr 1
    · simp
    · apply List.map_congr_left
      intro i _
      simp only [Function.comp_apply]
      push_cast
      ring

lemma runSched_eq (tasks : List ChartEntry) (sched : List Nat) (j : Nat) :
    runSched tasks sched j = if j ∈ sched then tasks.get? j else none := by
  suffices h : ∀ (sched : List Nat) (acc : Nat → Option ChartEntry) (j : Nat),
      (sched.foldl (fun acc i => fun j => if j = i then tasks.get? i else acc j) acc) j =
        if j ∈ sched then tasks.get? j else acc j by
    exact h sched _ j
  intro sched
  induction sched with
  | nil => intro acc j; simp
  | cons i rest ih =>
    intro acc j
    rw [List.foldl_cons, ih]
    by_cases hr : j ∈ rest
    · simp [hr, List.mem_cons]
    · by_cases hij : j = i
      · subst hij
        simp [hr, List.mem_cons]
      · simp [hr, hij, List.mem_cons]

lemma range_map_get (l : List ChartEntry) :
    (List.range l.length).map (fun j => l.get? j) = l.map some := by
  induction l with
  | nil => rfl
  | cons a t ih =>
    rw [List.length_cons, List.range_succ_eq_map, List.map_cons, List.map_map, List.map_cons]
    congr 1

/-- Claim C3: `getYearlyNumberOnes` returns one entry per consecutive year
from the input `year` through the current chart year — `nowYear` decremented
by one exactly when the 1-indexed query `month` is strictly greater than the
0-indexed current month `nowMonth0` — in ascending year order.  The result
is independent of the completion order `sched` of the concurrent fetches
(any schedule that completes every launched task), because `Promise.all`
places each result at its own index. -/
theorem getYearlyNumberOnes_range (fetch : Int → Int → Int → ChartEntry)
    (year month day nowYear nowMonth0 : Int) (sched : List Nat)
    (hs : ∀ j, j < (yearsUpTo year
        (if month > nowMonth0 then nowYear - 1 else nowYear)).length → j ∈ sched) :
    getYearlyNumberOnes fetch year month day nowYear nowMonth0 sched =
      (List.range ((if month > nowMonth0 then nowYear - 1 else nowYear) + 1 - year).toNat).map
        (fun i : Nat => some (fetch (year + (i : Int)) month day)) := by
  unfold getYearlyNumberOnes promiseAll
  have h1 : ∀ j ∈ List.range ((yearsUpTo year
      (if month > nowMonth0 then nowYear - 1 else nowYear)).map
        (fun y => fetch y month day)).length,
      runSched ((yearsUpTo year
        (if month > nowMonth0 then nowYear - 1 else nowYear)).map
          (fun y => fetch y month day)) sched j =
      ((yearsUpTo year (if month > nowMonth0 then nowYear - 1 else nowYear)).map
          (fun y => fetch y month day)).get? j := by
    intro j hj
    rw [runSched_eq]
    have hj2 := List.mem_range.mp hj
    rw [List.length_map] at hj2
    rw [if_pos (hs j hj2)]
  rw [List.map_congr_left h1, range_map_get, List.map_map]
  unfold yearsUpTo
  rw [yearsFuel_eq, List.map_map]
  rfl

/-- Claim C3, witness: birth year 2000, query month 6 (June), "now" =
April 2003 (`getMonth() = 3`); since `6 > 3` the last year is 2002, so three
entries are returned in ascending year order, here under the out-of-order
completion schedule `[2, 0, 1]`. -/
theorem getYearlyNumberOnes_range_w :
    getYearlyNumberOnes cFetch 2000 6 15 2003 3 [2, 0, 1] =
      [some (cFetch 2000 6 15), some (cFetch 2001 6 15), some (cFetch 2002 6 15)] := by
  have h := getYearlyNumberOnes_range cFetch 2000 6 15 2003 3 [2, 0, 1] (by decide)
  rw [h]
  decide

/-! ### Claim C10 -/

/-- Claim C10: the worker-pool discipline (spec §5, `withConcurrency(100)`)
never has more than 100 fetches in flight — every state reachable during a
backfill pool run satisfies `inFlight.length ≤ 100`. -/
theorem poolInFlight_le_cap (dates : List FetchIdent) (s : PoolState FetchIdent)
    (h : poolReachable 100 dates s) : s.inFlight.length ≤ 100 := by
  induction h with
  | refl => simp
  | tail hr hstep ih =>
    cases hstep with
    | start d rest inF done hlt =>
      simp only [List.length_cons]
      omega
    | finish pend pre post done d =>
      simp only [List.length_append, List.length_cons] at ih ⊢
      omega

/-- Claim C10, witness: after starting the first fetch of a two-date run,
one fetch is in flight — within the cap. -/
theorem poolInFlight_le_cap_w :
    (PoolState.mk [identB] [identA] ([] : List FetchIdent)).inFlight.length ≤ 100 :=
  poolInFlight_le_cap [identA, identB] _
    (Relation.ReflTransGen.single (poolStep.start identA [identB] [] [] (by decide)))
